import Mathlib

/-!
Verification of the request-coalescing and serialized-execution core of the
usable-powerpoint task pane.

The development shallowly embeds the relevant code:

* the logical-fingerprint computation of handlePptxToolCall, which keys the
  in-flight registry by the JavaScript string
  toolName + ":" + JSON.stringify(args) (src/unnamed/part_001);
* the in-flight call registry (inFlightCalls) and its insert/lookup/delete
  discipline;
* the serial execution chain built by serializeExecution;
* the UsableChatEmbed postMessage bridge: handleMessage validation, the
  handledRequestIds deduplication set, the TOOL_RESPONSE emission and the
  30-second eviction timers.

JavaScript strings are modelled as Lean strings (tool names, request ids) or
as lists of characters (serialized fingerprints).  Tool-call arguments, which
arrive over postMessage as JSON-shaped structured values, are modelled by the
inductive type J below; JSON numbers are modelled as integers, which covers
every argument the registered tools accept (indices, coordinates, counts).
-/
/-- JSON-shaped structured value, the model of a tool call's arguments.
Object fields are an ordered association list, mirroring the insertion order
that JavaScript objects preserve and that JSON.stringify serializes. -/
inductive J where
  | null : J
  | bool (b : Bool) : J
  | num (n : Int) : J
  | str (s : List Char) : J
  | arr (elems : List J) : J
  | obj (fields : List (List Char × J)) : J

/-- Decimal digit character for a value below ten. -/
def digChar (d : Nat) : Char := Char.ofNat (48 + d)

/-- The decimal digit run JSON.stringify prints for a natural number. -/
def natDigits (n : Nat) : List Char :=
  if n = 0 then ['0'] else ((Nat.digits 10 n).map digChar).reverse

/-- The character sequence JSON.stringify prints for an integer. -/
def intChars : Int → List Char
  | Int.ofNat m => natDigits m
  | Int.negSucc m => '-' :: natDigits (m + 1)

/-- Lowercase hexadecimal digit character, as used in \u escapes. -/
def hexChar (d : Nat) : Char :=
  if d < 10 then Char.ofNat (48 + d) else Char.ofNat (87 + d)

/-- JSON.stringify's escaping of one character inside a string literal:
quote and backslash get two-character escapes, the five named control
characters get their short escapes, the remaining control characters get
a six-character \u00XX escape, and every other character is printed as is. -/
def escC (c : Char) : List Char :=
  if c = '"' then ['\\', '"']
  else if c = '\\' then ['\\', '\\']
  else if c = '\x08' then ['\\', 'b']
  else if c = '\x09' then ['\\', 't']
  else if c = '\x0a' then ['\\', 'n']
  else if c = '\x0c' then ['\\', 'f']
  else if c = '\x0d' then ['\\', 'r']
  else if c.toNat < 32 then
    ['\\', 'u', '0', '0', hexChar (c.toNat / 16), hexChar (c.toNat % 16)]
  else [c]

/-- A JSON string literal: opening quote, escaped body, closing quote. -/
def strLit (s : List Char) : List Char :=
  '"' :: (s.flatMap escC ++ ['"'])

mutual

/-- The character sequence produced by JSON.stringify on a J value. -/
def ser : J → List Char
  | J.null => ['n', 'u', 'l', 'l']
  | J.bool true => ['t', 'r', 'u', 'e']
  | J.bool false => ['f', 'a', 'l', 's', 'e']
  | J.num n => intChars n
  | J.str s => strLit s
  | J.arr es => '[' :: (serItems es ++ [']'])
  | J.obj fs => '\x7b' :: (serFields fs ++ ['\x7d'])

/-- Comma-joined serialization of array elements. -/
def serItems : List J → List Char
  | [] => []
  | [x] => ser x
  | x :: y :: xs => ser x ++ ',' :: serItems (y :: xs)

/-- Comma-joined serialization of object fields, each a quoted key,
a colon, and the field value. -/
def serFields : List (List Char × J) → List Char
  | [] => []
  | [(k, v)] => strLit k ++ ':' :: ser v
  | (k, v) :: f :: fs => strLit k ++ ':' :: ser v ++ ',' :: serFields (f :: fs)

end

/-- The in-flight registry key built by handlePptxToolCall:
the JavaScript template literal toolName + ":" + JSON.stringify(args). -/
def fingerprint (toolName : String) (args : J) : List Char :=
  toolName.toList ++ ':' :: ser args

/-!
## Decoder for the serialized form

The functions below are verification scaffolding, not part of the program:
a decoder for exactly the strings the serializer above emits.  Proving that
the decoder recovers every serialized value shows the serialization is
injective, which is what the no-false-positive coalescing claim needs.
-/
/-- Decimal digit test on a character. -/
def isDig (c : Char) : Bool := 48 ≤ c.toNat && c.toNat ≤ 57

/-- Numeric value of a decimal digit character. -/
def digVal (c : Char) : Nat := c.toNat - 48

/-- Value of a big-endian decimal digit run. -/
def digitsVal (l : List Char) : Nat := Nat.ofDigits 10 (l.reverse.map digVal)

/-- Inverse of the short-escape table of escC. -/
def unesc (e : Char) : Option Char :=
  if e = '"' then some '"'
  else if e = '\\' then some '\\'
  else if e = 'b' then some '\x08'
  else if e = 't' then some '\x09'
  else if e = 'n' then some '\x0a'
  else if e = 'f' then some '\x0c'
  else if e = 'r' then some '\x0d'
  else none

/-- Inverse of hexChar. -/
def unhex (c : Char) : Option Nat :=
  if 48 ≤ c.toNat && c.toNat ≤ 57 then some (c.toNat - 48)
  else if 97 ≤ c.toNat && c.toNat ≤ 102 then some (c.toNat - 87)
  else none

/-- Decoder for the body of a string literal: consumes characters and escape
sequences up to the closing quote and returns the decoded body and the rest
of the input. -/
def parseStr : List Char → Option (List Char × List Char)
  | [] => none
  | c :: r =>
    if c = '"' then some ([], r)
    else if c = '\\' then
      match r with
      | [] => none
      | e :: r2 =>
        if e = 'u' then
          match r2 with
          | a :: b :: x :: y :: r3 =>
            if a = '0' && b = '0' then
              match unhex x, unhex y with
              | some hx, some hy =>
                (parseStr r3).map (fun p => (Char.ofNat (16 * hx + hy) :: p.1, p.2))
              | _, _ => none
            else none
          | _ => none
        else
          match unesc e with
          | some c2 => (parseStr r2).map (fun p => (c2 :: p.1, p.2))
          | none => none
    else (parseStr r).map (fun p => (c :: p.1, p.2))

mutual

/-- Fueled decoder for one serialized value. -/
def parseV : Nat → List Char → Option (J × List Char)
  | 0, _ => none
  | _, [] => none
  | fuel + 1, c :: r =>
    if c = 'n' then
      match r with
      | 'u' :: 'l' :: 'l' :: r2 => some (J.null, r2)
      | _ => none
    else if c = 't' then
      match r with
      | 'r' :: 'u' :: 'e' :: r2 => some (J.bool true, r2)
      | _ => none
    else if c = 'f' then
      match r with
      | 'a' :: 'l' :: 's' :: 'e' :: r2 => some (J.bool false, r2)
      | _ => none
    else if c = '"' then (parseStr r).map (fun p => (J.str p.1, p.2))
    else if c = '[' then (parseItems fuel r).map (fun p => (J.arr p.1, p.2))
    else if c = '\x7b' then (parseFields fuel r).map (fun p => (J.obj p.1, p.2))
    else if c = '-' then
      match r.takeWhile isDig with
      | [] => none
      | d :: ds => some (J.num (-(digitsVal (d :: ds) : Int)), r.dropWhile isDig)
    else if isDig c then
      some (J.num (digitsVal ((c :: r).takeWhile isDig)), (c :: r).dropWhile isDig)
    else none

/-- Fueled decoder for the tail of a serialized array, up to the closing
bracket. -/
def parseItems : Nat → List Char → Option (List J × List Char)
  | 0, _ => none
  | _, [] => none
  | fuel + 1, c :: r =>
    if c = ']' then some ([], r)
    else
      match parseV fuel (c :: r) with
      | none => none
      | some (v, rest) =>
        match rest with
        | ',' :: r2 => (parseItems fuel r2).map (fun p => (v :: p.1, p.2))
        | ']' :: r2 => some ([v], r2)
        | _ => none

/-- Fueled decoder for the tail of a serialized object, up to the closing
brace. -/
def parseFields : Nat → List Char → Option (List (List Char × J) × List Char)
  | 0, _ => none
  | _, [] => none
  | fuel + 1, c :: r =>
    if c = '\x7d' then some ([], r)
    else if c = '"' then
      match parseStr r with
      | none => none
      | some (k, rest) =>
        match rest with
        | ':' :: r2 =>
          match parseV fuel r2 with
          | none => none
          | some (v, rest2) =>
            match rest2 with
            | ',' :: r3 => (parseFields fuel r3).map (fun p => ((k, v) :: p.1, p.2))
            | '\x7d' :: r3 => some ([(k, v)], r3)
            | _ => none
        | _ => none
    else none

end

/-- Whether a character sequence does not start with a decimal digit, so a
digit run followed by it is parsed back in full. -/
def digFree : List Char → Bool
  | [] => true
  | c :: _ => !isDig c

/-! ## The in-flight registry and dispatch of handlePptxToolCall -/
/-- The tool names of the static tools table in src/unnamed/part_001, in
source order.  handlerMap is built from exactly these entries, so a handler
is registered for a name iff the name is in this list. -/
def registeredToolNames : List String :=
  ["get_presentation_info", "list_slides", "get_slide", "get_selected_slide",
   "add_slide", "delete_slide", "move_slide", "duplicate_slide",
   "set_slide_title", "add_text_box", "set_shape_text", "get_shapes",
   "delete_shape", "add_table", "set_table_data", "apply_background_color",
   "set_shape_position", "set_layout"]

/-- The module-level mutable state read and written by handlePptxToolCall:
the inFlightCalls map (modelled as an association list from fingerprint keys
to promise identities), the supply of fresh promise identities, and the list
of units submitted to serializeExecution so far, in submission order. -/
structure PptxState where
  inFlightCalls : List (List Char × Nat)
  nextPromiseId : Nat
  chainSubmitted : List Nat

/-- One synchronous run of handlePptxToolCall.  The result is either the
thrown unknown-tool error, or the identity of the promise returned to the
caller together with a flag recording whether this call invoked the producer
(that is, called serializeExecution on the tool handler); callers that share
a promise identity share one future and therefore observe the same eventual
outcome.  A producer invocation appends its unit to chainSubmitted. -/
def handlePptxToolCall (st : PptxState) (toolName : String) (args : J) :
    Except String (Nat × Bool) × PptxState :=
  if toolName ∉ registeredToolNames then
    (Except.error ("Unknown PowerPoint tool: \"" ++ toolName ++ "\""), st)
  else
    let key := fingerprint toolName args
    match st.inFlightCalls.lookup key with
    | some pid => (Except.ok (pid, false), st)
    | none =>
      (Except.ok (st.nextPromiseId, true),
        { inFlightCalls := (key, st.nextPromiseId) :: st.inFlightCalls,
          nextPromiseId := st.nextPromiseId + 1,
          chainSubmitted := st.chainSubmitted ++ [st.nextPromiseId] })

/-- Settlement of the execution registered under key: the two continuations
installed when the promise was created both delete the key from
inFlightCalls, and exactly one of them runs when the promise settles. -/
def settlePptxCall (st : PptxState) (key : List Char) : PptxState :=
  { st with inFlightCalls := st.inFlightCalls.eraseP (fun p => p.1 == key) }

/-! ## The serial execution chain of serializeExecution -/
/-- The swallow continuations installed by serializeExecution on the chain
cursor: executionChain = result.then(() => undefined, () => undefined), so
the cursor settles successfully whatever the unit's outcome was. -/
def swallow {ε α : Type} (r : Except ε α) : Except ε Unit :=
  match r with
  | Except.ok _ => Except.ok ()
  | Except.error _ => Except.ok ()

/-- Observable event of the execution chain: unit k starts running, or unit
k settles with its outcome (the outcome the caller's future settles with). -/
inductive QEvent (ε α : Type) where
  | start (k : Nat) : QEvent ε α
  | settled (k : Nat) (outcome : Except ε α) : QEvent ε α

/-- The event trace produced by the execution chain on the units submitted
via serializeExecution, in submission order, numbering units from k0.  Each
submitted unit is chained to run only after the previous unit's neutralized
cursor has settled: result k = chain(k-1).then(() => unit k()), and the
cursor is advanced to result(k).then(swallow), so unit k starts, settles
with its own outcome, and only then does unit k+1 start. -/
def runChain {ε α : Type} (units : List (Except ε α)) (k0 : Nat) : List (QEvent ε α) :=
  match units with
  | [] => []
  | u :: rest => QEvent.start k0 :: QEvent.settled k0 u :: runChain rest (k0 + 1)

/-- Indices of units that have started, in trace order. -/
def startsIn {ε α : Type} (tr : List (QEvent ε α)) : List Nat :=
  tr.filterMap (fun e => match e with | QEvent.start k => some k | _ => none)

/-- Indices of units that have settled, in trace order. -/
def settledIn {ε α : Type} (tr : List (QEvent ε α)) : List Nat :=
  tr.filterMap (fun e => match e with | QEvent.settled k _ => some k | _ => none)

/-- Settled units with the outcome their caller's future settles with. -/
def outcomesIn {ε α : Type} (tr : List (QEvent ε α)) : List (Nat × Except ε α) :=
  tr.filterMap (fun e => match e with | QEvent.settled k u => some (k, u) | _ => none)

/-! ## The UsableChatEmbed postMessage bridge -/
/-- Body of an outbound TOOL_RESPONSE: the result field is
either success true with the handler result or success false with the
stringified failure reason. -/
inductive RespBody where
  | ok (result : J) : RespBody
  | fail (error : String) : RespBody

/-- Outbound postMessage envelopes sent by the embed to the iframe that the
claims are concerned with. -/
inductive OutMsg where
  | auth (token : String) : OutMsg
  | toolResponse (requestId : String) (body : RespBody) : OutMsg

/-- Option callbacks the embed invokes on its owner. -/
inductive CbEvent where
  | readyCb : CbEvent
  | tokenRefreshCb : CbEvent
  | errorCb (code msg : String) : CbEvent
  | conversationCb (conversationId : Option String) : CbEvent

/-- The data field of an incoming message event: absent or non-object data,
an object without a type field, or one of the typed envelopes handled by the
switch in UsableChatEmbed.handleMessage. -/
inductive EventData where
  | nullData : EventData
  | nonObject : EventData
  | objectNoType : EventData
  | ready : EventData
  | toolCall (requestId tool : String) (args : J) : EventData
  | requestTokenRefresh : EventData
  | errorMsg (code msg : Option String) : EventData
  | conversationChanged (conversationId : Option String) : EventData
  | otherType (t : String) : EventData

/-- An incoming message event: its origin, the identity of the window that
sent it, and its data. -/
structure MsgEvent where
  origin : String
  source : Nat
  data : EventData

/-- Construction-time configuration of a UsableChatEmbed: the expected
iframe origin, the identity of the iframe's contentWindow, and which of the
optional callbacks were supplied. -/
structure EmbedConfig where
  iframeOrigin : String
  iframeSource : Nat
  hasOnToolCall : Bool
  hasOnError : Bool
  hasOnConversationChange : Bool
  hasOnTokenRefreshRequired : Bool

/-- The mutable state of a UsableChatEmbed instance, together with the
observable logs the claims are stated over: every message posted to the
iframe (sent), every owner callback fired (callbacks), every onToolCall
invocation (invoked), the requestIds whose onToolCall promise is still
pending, and the eviction timers scheduled by the 30-second cleanup. -/
structure EState where
  isReady : Bool
  readyQueue : Nat
  cachedToken : Option String
  handledRequestIds : List String
  pendingToolCalls : List String
  evictions : List (String × Nat)
  sent : List OutMsg
  callbacks : List CbEvent
  invoked : List (String × String × J)

/-- The embed state right after the constructor ran. -/
def initEState : EState :=
  { isReady := false, readyQueue := 0, cachedToken := none,
    handledRequestIds := [], pendingToolCalls := [], evictions := [],
    sent := [], callbacks := [], invoked := [] }

/-- UsableChatEmbed.handleMessage: origin validation, source validation,
data-shape validation, then the switch on data.type.  A TOOL_CALL whose
requestId is already in handledRequestIds returns without any effect;
otherwise the requestId is added and, only if an onToolCall handler was
configured, the handler is invoked and its requestId becomes pending. -/
def handleMessage (cfg : EmbedConfig) (st : EState) (ev : MsgEvent) : EState :=
  if cfg.iframeOrigin ≠ "*" ∧ ev.origin ≠ cfg.iframeOrigin then st
  else if ev.source ≠ cfg.iframeSource then st
  else
    match ev.data with
    | EventData.nullData => st
    | EventData.nonObject => st
    | EventData.objectNoType => st
    | EventData.ready =>
      { st with
        isReady := true
        readyQueue := 0
        callbacks := st.callbacks ++ List.replicate st.readyQueue CbEvent.readyCb }
    | EventData.toolCall requestId tool args =>
      if requestId ∈ st.handledRequestIds then st
      else
        let st1 := { st with handledRequestIds := requestId :: st.handledRequestIds }
        if cfg.hasOnToolCall then
          { st1 with
            pendingToolCalls := requestId :: st1.pendingToolCalls
            invoked := st1.invoked ++ [(requestId, tool, args)] }
        else st1
    | EventData.requestTokenRefresh =>
      if cfg.hasOnTokenRefreshRequired then
        { st with callbacks := st.callbacks ++ [CbEvent.tokenRefreshCb] }
      else
        match st.cachedToken with
        | some tok => { st with sent := st.sent ++ [OutMsg.auth tok] }
        | none => st
    | EventData.errorMsg code msg =>
      if cfg.hasOnError then
        { st with callbacks := st.callbacks
            ++ [CbEvent.errorCb (code.getD "UNKNOWN") (msg.getD "")] }
      else st
    | EventData.conversationChanged conversationId =>
      if cfg.hasOnConversationChange then
        { st with callbacks := st.callbacks ++ [CbEvent.conversationCb conversationId] }
      else st
    | EventData.otherType _ => st

/-- Settlement of the onToolCall promise for requestId at time now: the
then/catch continuation sends exactly one TOOL_RESPONSE keyed by the
requestId, and the finally continuation schedules the deletion of the
requestId from handledRequestIds 30000 milliseconds later.  A settlement
for a requestId that is not pending has no effect. -/
def settleToolCall (st : EState) (requestId : String) (out : Except String J)
    (now : Nat) : EState :=
  if requestId ∈ st.pendingToolCalls then
    { st with
      pendingToolCalls := st.pendingToolCalls.erase requestId
      sent := st.sent ++ [OutMsg.toolResponse requestId
        (match out with
         | Except.ok v => RespBody.ok v
         | Except.error e => RespBody.fail e)]
      evictions := st.evictions ++ [(requestId, now + 30000)] }
  else st

/-- Firing of the eviction timers that are due at time now: each deletes
its requestId from handledRequestIds. -/
def fireEvictions (st : EState) (now : Nat) : EState :=
  { st with
    handledRequestIds := st.handledRequestIds.filter
      (fun rid => !(st.evictions.any (fun p => p.1 == rid && p.2 ≤ now)))
    evictions := st.evictions.filter (fun p => !(p.2 ≤ now)) }

/-- A timed occurrence in the life of the embed: an incoming message event,
or the settlement of a pending onToolCall promise. -/
inductive EmbedEvent where
  | recv (ev : MsgEvent) (t : Nat) : EmbedEvent
  | settle (requestId : String) (out : Except String J) (t : Nat) : EmbedEvent

/-- One step of the embed: timers due at the event's time fire first, then
the event itself is processed. -/
def estep (cfg : EmbedConfig) (st : EState) : EmbedEvent → EState
  | EmbedEvent.recv ev t => handleMessage cfg (fireEvictions st t) ev
  | EmbedEvent.settle requestId out t =>
    settleToolCall (fireEvictions st t) requestId out t

/-- Run of the embed over a timed event sequence. -/
def runEmbed (cfg : EmbedConfig) (st : EState) (events : List EmbedEvent) : EState :=
  events.foldl (estep cfg) st

/-- Number of TOOL_RESPONSE messages keyed by requestId in an outbound log. -/
def countResponses (requestId : String) (sent : List OutMsg) : Nat :=
  sent.countP (fun m => match m with
    | OutMsg.toolResponse rid _ => rid == requestId
    | _ => false)

/-- Number of onToolCall invocations for requestId in an invocation log. -/
def countInvoked (requestId : String) (inv : List (String × String × J)) : Nat :=
  inv.countP (fun e => e.1 == requestId)

/-- Holds when, from the given embed state on, no TOOL_RESPONSE keyed by the
given requestId is ever posted, whatever events follow. -/
def respondsNever (cfg : EmbedConfig) (st : EState) (rid : String) : Prop :=
  ∀ events : List EmbedEvent,
    countResponses rid (runEmbed cfg st events).sent = 0

/-! ## Digit and escape lemmas -/
theorem isDig_digChar (d : Nat) (h : d < 10) : isDig (digChar d) = true := by
  interval_cases d <;> decide

theorem digVal_digChar (d : Nat) (h : d < 10) : digVal (digChar d) = d := by
  interval_cases d <;> decide

theorem natDigits_ne_nil (n : Nat) : natDigits n ≠ [] := by
  unfold natDigits
  split
  · simp
  · simpa using Nat.digits_ne_nil_iff_ne_zero.mpr (by assumption)

theorem mem_natDigits_isDig (n : Nat) : ∀ c ∈ natDigits n, isDig c = true := by
  intro c hc
  unfold natDigits at hc
  split at hc
  · simp at hc
    subst hc
    decide
  · simp only [List.mem_reverse, List.mem_map] at hc
    obtain ⟨d, hd, rfl⟩ := hc
    exact isDig_digChar d (Nat.digits_lt_base (by norm_num) hd)

theorem digitsVal_natDigits (n : Nat) : digitsVal (natDigits n) = n := by
  unfold natDigits digitsVal
  split
  · subst_vars
    decide
  · rw [List.reverse_reverse, List.map_map]
    have hmap : (Nat.digits 10 n).map (digVal ∘ digChar) = Nat.digits 10 n := by
      conv_rhs => rw [← List.map_id (Nat.digits 10 n)]
      apply List.map_congr_left
      intro d hd
      simp [digVal_digChar d (Nat.digits_lt_base (by norm_num) hd)]
    rw [hmap, Nat.ofDigits_digits]

theorem takeWhile_digits_append (d r : List Char) (hd : ∀ c ∈ d, isDig c = true)
    (hr : digFree r = true) :
    (d ++ r).takeWhile isDig = d ∧ (d ++ r).dropWhile isDig = r := by
  induction d with
  | nil =>
    cases r with
    | nil => simp
    | cons c t =>
      simp only [digFree, Bool.not_eq_true'] at hr
      simp [List.takeWhile_cons, List.dropWhile_cons, hr]
  | cons c t ih =>
    have hc := hd c (by simp)
    have iht := ih (fun x hx => hd x (by simp [hx]))
    simp [List.takeWhile_cons, List.dropWhile_cons, hc, iht.1, iht.2]

theorem unhex_hexChar (d : Nat) (h : d < 16) : unhex (hexChar d) = some d := by
  interval_cases d <;> decide

theorem parseStr_escC (c : Char) (t : List Char) :
    parseStr (escC c ++ t) = (parseStr t).map (fun p => (c :: p.1, p.2)) := by
  by_cases h1 : c = '"'
  · subst h1; rw [show escC '"' = ['\\', '"'] from rfl]; rw [List.cons_append, List.cons_append, parseStr.eq_def]; simp [unesc]
  by_cases h2 : c = '\\'
  · subst h2; rw [show escC '\\' = ['\\', '\\'] from rfl]; rw [List.cons_append, List.cons_append, parseStr.eq_def]; simp [unesc]
  by_cases h3 : c = '\x08'
  · subst h3; rw [show escC '\x08' = ['\\', 'b'] from rfl]; rw [List.cons_append, List.cons_append, parseStr.eq_def]; simp [unesc]
  by_cases h4 : c = '\x09'
  · subst h4; rw [show escC '\x09' = ['\\', 't'] from rfl]; rw [List.cons_append, List.cons_append, parseStr.eq_def]; simp [unesc]
  by_cases h5 : c = '\x0a'
  · subst h5; rw [show escC '\x0a' = ['\\', 'n'] from rfl]; rw [List.cons_append, List.cons_append, parseStr.eq_def]; simp [unesc]
  by_cases h6 : c = '\x0c'
  · subst h6; rw [show escC '\x0c' = ['\\', 'f'] from rfl]; rw [List.cons_append, List.cons_append, parseStr.eq_def]; simp [unesc]
  by_cases h7 : c = '\x0d'
  · subst h7; rw [show escC '\x0d' = ['\\', 'r'] from rfl]; rw [List.cons_append, List.cons_append, parseStr.eq_def]; simp [unesc]
  by_cases h8 : c.toNat < 32
  · have hesc : escC c =
        ['\\', 'u', '0', '0', hexChar (c.toNat / 16), hexChar (c.toNat % 16)] := by
      simp [escC, h1, h2, h3, h4, h5, h6, h7, h8]
    have hhi : unhex (hexChar (c.toNat / 16)) = some (c.toNat / 16) :=
      unhex_hexChar _ (by omega)
    have hlo : unhex (hexChar (c.toNat % 16)) = some (c.toNat % 16) :=
      unhex_hexChar _ (by omega)
    have hval : 16 * (c.toNat / 16) + c.toNat % 16 = c.toNat := Nat.div_add_mod _ _
    rw [hesc]
    rw [List.cons_append, List.cons_append, List.cons_append, List.cons_append,
      List.cons_append, List.cons_append, parseStr.eq_def]
    simp [hhi, hlo, hval]
  · have hesc : escC c = [c] := by
      simp [escC, h1, h2, h3, h4, h5, h6, h7, h8]
    rw [hesc]
    rw [List.cons_append, List.nil_append, parseStr.eq_def]
    simp [h1, h2]

theorem parseStr_body (s t : List Char) :
    parseStr (s.flatMap escC ++ '"' :: t) = some (s, t) := by
  induction s generalizing t with
  | nil =>
    rw [List.flatMap_nil, List.nil_append, parseStr.eq_def]
    simp
  | cons c cs ih =>
    rw [List.flatMap_cons, List.append_assoc, parseStr_escC, ih]
    rfl

/-! ## Serializer head shape and roundtrip -/
theorem isDig_resolve (c : Char) (h : isDig c = true) :
    c ≠ 'n' ∧ c ≠ 't' ∧ c ≠ 'f' ∧ c ≠ '"' ∧ c ≠ '[' ∧ c ≠ '\x7b' ∧ c ≠ '-' := by
  refine ⟨?_, ?_, ?_, ?_, ?_, ?_, ?_⟩ <;> (rintro rfl; exact absurd h (by decide))

theorem ser_head (v : J) : ∃ c cs, ser v = c :: cs ∧
    (c = 'n' ∨ c = 't' ∨ c = 'f' ∨ c = '"' ∨ c = '[' ∨ c = '\x7b' ∨ c = '-' ∨
      isDig c = true) := by
  cases v with
  | null => exact ⟨'n', ['u', 'l', 'l'], by simp [ser], by tauto⟩
  | bool b =>
    cases b with
    | false => exact ⟨'f', ['a', 'l', 's', 'e'], by simp [ser], by tauto⟩
    | true => exact ⟨'t', ['r', 'u', 'e'], by simp [ser], by tauto⟩
  | num n =>
    cases n with
    | ofNat m =>
      obtain ⟨c, cs, h⟩ := List.exists_cons_of_ne_nil (natDigits_ne_nil m)
      refine ⟨c, cs, by simp [ser, intChars, h], ?_⟩
      have := mem_natDigits_isDig m c (by rw [h]; simp)
      tauto
    | negSucc m =>
      exact ⟨'-', natDigits (m + 1), by simp [ser, intChars], by tauto⟩
  | str s => exact ⟨'"', s.flatMap escC ++ ['"'], by simp [ser, strLit], by tauto⟩
  | arr es => exact ⟨'[', serItems es ++ [']'], by simp [ser], by tauto⟩
  | obj fs => exact ⟨'\x7b', serFields fs ++ ['\x7d'], by simp [ser], by tauto⟩

theorem headStart_ne_rbracket (c : Char)
    (h : c = 'n' ∨ c = 't' ∨ c = 'f' ∨ c = '"' ∨ c = '[' ∨ c = '\x7b' ∨ c = '-' ∨
      isDig c = true) : ¬ c = ']' := by
  rcases h with rfl | rfl | rfl | rfl | rfl | rfl | rfl | hdig
  · decide
  · decide
  · decide
  · decide
  · decide
  · decide
  · decide
  · intro h; rw [h] at hdig; exact absurd hdig (by decide)

theorem parseV_digits (n : Nat) (d r : List Char) (hd : ∀ c ∈ d, isDig c = true)
    (hne : d ≠ []) (hr : digFree r = true) :
    parseV (n + 1) (d ++ r) = some (J.num (digitsVal d : Int), r) := by
  obtain ⟨c, cs, rfl⟩ := List.exists_cons_of_ne_nil hne
  have hc : isDig c = true := hd c (by simp)
  obtain ⟨hn, ht, hf, hq, hlb, hob, hm⟩ := isDig_resolve c hc
  have htake := takeWhile_digits_append (c :: cs) r hd hr
  rw [List.cons_append, parseV.eq_def]
  simp [hn, ht, hf, hq, hlb, hob, hm, hc]
  have h1 := htake.1
  have h2 := htake.2
  rw [List.cons_append, List.takeWhile_cons, hc] at h1
  rw [List.cons_append, List.dropWhile_cons, hc] at h2
  simp at h1 h2
  simp [h1, h2]

theorem parse_ser (fuel : Nat) :
    (∀ (v : J) (r : List Char), sizeOf v ≤ fuel → digFree r = true →
      parseV fuel (ser v ++ r) = some (v, r)) ∧
    (∀ (es : List J) (r : List Char), sizeOf es ≤ fuel →
      parseItems fuel (serItems es ++ ']' :: r) = some (es, r)) ∧
    (∀ (fs : List (List Char × J)) (r : List Char), sizeOf fs ≤ fuel →
      parseFields fuel (serFields fs ++ '\x7d' :: r) = some (fs, r)) := by
  induction fuel with
  | zero =>
    refine ⟨?_, ?_, ?_⟩
    · intro v r hsz _
      exfalso
      cases v <;> simp at hsz
    · intro es r hsz
      exfalso
      cases es <;> simp at hsz
    · intro fs r hsz
      exfalso
      cases fs <;> simp at hsz
  | succ n ih =>
    obtain ⟨ihV, ihI, ihF⟩ := ih
    refine ⟨?_, ?_, ?_⟩
    · intro v r hsz hr
      cases v with
      | null =>
        rw [show ser J.null = ['n', 'u', 'l', 'l'] from by simp [ser]]
        rw [parseV.eq_def]
        simp
      | bool b =>
        cases b with
        | false =>
          rw [show ser (J.bool false) = ['f', 'a', 'l', 's', 'e'] from by simp [ser]]
          rw [parseV.eq_def]
          simp
        | true =>
          rw [show ser (J.bool true) = ['t', 'r', 'u', 'e'] from by simp [ser]]
          rw [parseV.eq_def]
          simp
      | num m =>
        cases m with
        | ofNat k =>
          rw [show ser (J.num (Int.ofNat k)) = natDigits k from by simp [ser, intChars]]
          rw [parseV_digits n _ r (mem_natDigits_isDig k) (natDigits_ne_nil k) hr,
            digitsVal_natDigits]
          rfl
        | negSucc k =>
          rw [show ser (J.num (Int.negSucc k)) = '-' :: natDigits (k + 1) from by
            simp [ser, intChars]]
          obtain ⟨c, cs, hnd⟩ := List.exists_cons_of_ne_nil (natDigits_ne_nil (k + 1))
          have htake := takeWhile_digits_append (natDigits (k + 1)) r
            (mem_natDigits_isDig (k + 1)) hr
          rw [List.cons_append, parseV.eq_def]
          rw [hnd] at htake
          simp only [List.cons_append] at htake
          simp [htake.1, htake.2, hnd]
          rw [← hnd, digitsVal_natDigits]
          simp [Int.negSucc_eq]
      | str s =>
        rw [show ser (J.str s) = '"' :: (s.flatMap escC ++ ['"']) from by
          simp [ser, strLit]]
        rw [List.cons_append, List.append_assoc, List.singleton_append, parseV.eq_def]
        simp [parseStr_body]
      | arr es =>
        have hsz2 : sizeOf es ≤ n := by simp at hsz; omega
        rw [show ser (J.arr es) = '[' :: (serItems es ++ [']']) from by simp [ser]]
        rw [List.cons_append, List.append_assoc, List.singleton_append, parseV.eq_def]
        simp [ihI es r hsz2]
      | obj fs =>
        have hsz2 : sizeOf fs ≤ n := by simp at hsz; omega
        rw [show ser (J.obj fs) = '\x7b' :: (serFields fs ++ ['\x7d']) from by simp [ser]]
        rw [List.cons_append, List.append_assoc, List.singleton_append, parseV.eq_def]
        simp [ihF fs r hsz2]
    · intro es r hsz
      cases es with
      | nil =>
        rw [show serItems [] = [] from by simp [serItems], List.nil_append,
          parseItems.eq_def]
        simp
      | cons x xs =>
        obtain ⟨c, cs, hser, hc⟩ := ser_head x
        have hcne : ¬ c = ']' := headStart_ne_rbracket c hc
        cases xs with
        | nil =>
          have hszx : sizeOf x ≤ n := by simp at hsz; omega
          rw [show serItems [x] = ser x from by simp [serItems], hser, List.cons_append,
            parseItems.eq_def]
          have hpv : parseV n (c :: (cs ++ ']' :: r)) = some (x, ']' :: r) := by
            rw [← List.cons_append, ← hser]
            exact ihV x (']' :: r) hszx rfl
          simp [hcne, hpv]
        | cons y ys =>
          have hszx : sizeOf x ≤ n := by simp at hsz; omega
          have hszy : sizeOf (y :: ys) ≤ n := by simp at hsz; simp; omega
          rw [show serItems (x :: y :: ys) = ser x ++ ',' :: serItems (y :: ys) from by
            simp [serItems], hser]
          have hassoc : ((c :: cs) ++ ',' :: serItems (y :: ys)) ++ ']' :: r
              = c :: (cs ++ (',' :: (serItems (y :: ys) ++ ']' :: r))) := by simp
          rw [hassoc, parseItems.eq_def]
          have hpv : parseV n (c :: (cs ++ (',' :: (serItems (y :: ys) ++ ']' :: r))))
              = some (x, ',' :: (serItems (y :: ys) ++ ']' :: r)) := by
            rw [← List.cons_append, ← hser]
            exact ihV x _ hszx rfl
          simp [hcne, hpv, ihI (y :: ys) r hszy]
    · intro fs r hsz
      cases fs with
      | nil =>
        rw [show serFields [] = [] from by simp [serFields], List.nil_append,
          parseFields.eq_def]
        simp
      | cons kv fs2 =>
        obtain ⟨k, v⟩ := kv
        cases fs2 with
        | nil =>
          have hszv : sizeOf v ≤ n := by simp at hsz; omega
          rw [show serFields [(k, v)] = strLit k ++ ':' :: ser v from by simp [serFields]]
          have hshape : (strLit k ++ ':' :: ser v) ++ '\x7d' :: r
              = '"' :: (k.flatMap escC ++ '"' :: (':' :: (ser v ++ '\x7d' :: r))) := by
            simp [strLit]
          rw [hshape, parseFields.eq_def]
          have hpv : parseV n (ser v ++ '\x7d' :: r) = some (v, '\x7d' :: r) :=
            ihV v _ hszv rfl
          simp [parseStr_body, hpv]
        | cons kv2 fs3 =>
          have hszv : sizeOf v ≤ n := by simp at hsz; omega
          have hszf : sizeOf (kv2 :: fs3) ≤ n := by simp at hsz; simp; omega
          rw [show serFields ((k, v) :: kv2 :: fs3)
              = strLit k ++ ':' :: ser v ++ ',' :: serFields (kv2 :: fs3) from by
            simp [serFields]]
          have hshape : (strLit k ++ ':' :: ser v ++ ',' :: serFields (kv2 :: fs3))
                ++ '\x7d' :: r
              = '"' :: (k.flatMap escC ++ '"' :: (':' ::
                (ser v ++ ',' :: (serFields (kv2 :: fs3) ++ '\x7d' :: r)))) := by
            simp [strLit]
          rw [hshape, parseFields.eq_def]
          have hpv : parseV n (ser v ++ ',' :: (serFields (kv2 :: fs3) ++ '\x7d' :: r))
              = some (v, ',' :: (serFields (kv2 :: fs3) ++ '\x7d' :: r)) :=
            ihV v _ hszv rfl
          simp [parseStr_body, hpv, ihF (kv2 :: fs3) r hszf]

/-- The serialization is injective: distinct argument values always produce
distinct JSON.stringify outputs. -/
theorem ser_inj (a b : J) (h : ser a = ser b) : a = b := by
  have ha := (parse_ser (sizeOf a + sizeOf b)).1 a [] (by omega) rfl
  have hb := (parse_ser (sizeOf a + sizeOf b)).1 b [] (by omega) rfl
  rw [h] at ha
  have := ha.symm.trans hb
  simpa using this

theorem no_colon_split (l1 : List Char) (l2 r1 r2 : List Char)
    (h1 : ':' ∉ l1) (h2 : ':' ∉ l2)
    (h : l1 ++ ':' :: r1 = l2 ++ ':' :: r2) : l1 = l2 ∧ r1 = r2 := by
  induction l1 generalizing l2 with
  | nil =>
    cases l2 with
    | nil => simpa using h
    | cons c t =>
      rw [List.nil_append, List.cons_append] at h
      injection h with hc _
      exact absurd (hc ▸ List.mem_cons_self c t) h2
  | cons c t ih =>
    cases l2 with
    | nil =>
      rw [List.nil_append, List.cons_append] at h
      injection h with hc _
      exact absurd (hc ▸ List.mem_cons_self c t) h1
    | cons c2 t2 =>
      rw [List.cons_append, List.cons_append] at h
      injection h with hc htail
      subst hc
      have ihr := ih t2 (fun hm => h1 (List.mem_cons_of_mem _ hm))
        (fun hm => h2 (List.mem_cons_of_mem _ hm)) htail
      exact ⟨by rw [ihr.1], ihr.2⟩

/-- The in-flight key toolName + ":" + JSON.stringify(args) distinguishes
every pair of distinct calls, as long as neither tool name contains a
colon. -/
theorem fingerprint_inj (t1 t2 : String) (a1 a2 : J)
    (h1 : ':' ∉ t1.toList) (h2 : ':' ∉ t2.toList)
    (h : fingerprint t1 a1 = fingerprint t2 a2) : t1 = t2 ∧ a1 = a2 := by
  obtain ⟨hl, hr⟩ := no_colon_split _ _ _ _ h1 h2 h
  exact ⟨String.toList_inj.mp hl, ser_inj _ _ hr⟩

theorem registered_no_colon : ∀ t ∈ registeredToolNames, ':' ∉ t.toList := by
  decide

theorem startsIn_runChain {ε α : Type} (units : List (Except ε α)) (k0 : Nat) :
    startsIn (runChain units k0) = List.range' k0 units.length := by
  induction units generalizing k0 with
  | nil => simp [runChain, startsIn]
  | cons u rest ih =>
    simp [runChain, startsIn, List.range'] at *
    exact ih (k0 + 1)

theorem outcomesIn_runChain {ε α : Type} (units : List (Except ε α)) (k0 : Nat) :
    outcomesIn (runChain units k0) = units.enumFrom k0 := by
  induction units generalizing k0 with
  | nil => simp [runChain, outcomesIn]
  | cons u rest ih =>
    simp [runChain, outcomesIn, List.enumFrom] at *
    exact ih (k0 + 1)

theorem chain_prefix_invariant {ε α : Type} (units : List (Except ε α)) (k0 p : Nat) :
    (startsIn ((runChain units k0).take p)).length
        ≤ (settledIn ((runChain units k0).take p)).length + 1 ∧
    ∀ m ∈ startsIn ((runChain units k0).take p),
      k0 ≤ m ∧ (k0 < m → (m - 1) ∈ settledIn ((runChain units k0).take p)) := by
  induction units generalizing k0 p with
  | nil => simp [runChain, startsIn, settledIn]
  | cons u rest ih =>
    match p with
    | 0 => simp [startsIn, settledIn]
    | 1 =>
      refine ⟨by simp [runChain, startsIn, settledIn], ?_⟩
      intro m hm
      simp [runChain, startsIn, settledIn] at hm
      subst hm
      simp [runChain, startsIn, settledIn]
    | p + 2 =>
      have ihp := ih (k0 + 1) p
      constructor
      · simp only [runChain, List.take_succ_cons, startsIn, settledIn,
          List.filterMap_cons, List.length_cons]
        simpa [startsIn, settledIn] using ihp.1
      · intro m hm
        simp only [runChain, List.take_succ_cons, startsIn,
          List.filterMap_cons] at hm
        simp only [List.mem_cons] at hm
        rcases hm with rfl | hm
        · refine ⟨le_refl m, ?_⟩
          intro hlt
          omega
        · have hmem := ihp.2 m (by simpa [startsIn] using hm)
          refine ⟨by omega, ?_⟩
          intro hlt
          simp only [runChain, List.take_succ_cons, settledIn, List.filterMap_cons,
            List.mem_cons]
          rcases Nat.lt_or_ge k0 (m - 1) with hgt | hle
          · right
            have := hmem.2 (by omega)
            simpa [settledIn] using this
          · left
            omega

theorem get?_mem_enumFrom {α : Type} (l : List α) (k0 k : Nat) (x : α)
    (h : l.get? k = some x) : (k0 + k, x) ∈ List.enumFrom k0 l := by
  induction l generalizing k0 k with
  | nil => simp at h
  | cons a t ih =>
    cases k with
    | zero =>
      simp at h
      subst h
      simp [List.enumFrom]
    | succ k =>
      simp only [List.get?] at h
      have := ih (k0 + 1) k h
      simp only [List.enumFrom, List.mem_cons]
      right
      have harith : k0 + (k + 1) = (k0 + 1) + k := by omega
      rw [harith]
      exact this

/-! ## Claims about the call coalescer and dispatcher -/
/-- C3: two handlePptxToolCall invocations with identical fingerprint (same
registered tool name, same JSON serialization of the arguments), the second
arriving before the first execution settles, invoke the producer exactly
once: the first call registers the execution and invokes the producer, the
second returns the same shared promise (hence both callers observe the same
outcome), does not invoke the producer, and leaves the state unchanged. -/
theorem coalesce_inflight_single_producer (st : PptxState) (t : String) (a1 a2 : J)
    (hreg : t ∈ registeredToolNames) (hser : ser a1 = ser a2)
    (hnew : st.inFlightCalls.lookup (fingerprint t a1) = none) :
    handlePptxToolCall st t a1
      = (Except.ok (st.nextPromiseId, true),
          { inFlightCalls := (fingerprint t a1, st.nextPromiseId) :: st.inFlightCalls
            nextPromiseId := st.nextPromiseId + 1
            chainSubmitted := st.chainSubmitted ++ [st.nextPromiseId] }) ∧
    (handlePptxToolCall (handlePptxToolCall st t a1).2 t a2).1
      = Except.ok (st.nextPromiseId, false) ∧
    (handlePptxToolCall (handlePptxToolCall st t a1).2 t a2).2
      = (handlePptxToolCall st t a1).2 := by
  have hfp : fingerprint t a2 = fingerprint t a1 := by simp [fingerprint, hser]
  have h1 : handlePptxToolCall st t a1
      = (Except.ok (st.nextPromiseId, true),
          { inFlightCalls := (fingerprint t a1, st.nextPromiseId) :: st.inFlightCalls
            nextPromiseId := st.nextPromiseId + 1
            chainSubmitted := st.chainSubmitted ++ [st.nextPromiseId] }) := by
    simp [handlePptxToolCall, hreg, hnew]
  refine ⟨h1, ?_, ?_⟩ <;> rw [h1] <;> simp [handlePptxToolCall, hreg, hfp, List.lookup]

theorem coalesce_inflight_single_producer_witness :
    ("add_slide" ∈ registeredToolNames ∧
      ser (J.obj []) = ser (J.obj []) ∧
      (PptxState.mk [] 0 []).inFlightCalls.lookup
        (fingerprint "add_slide" (J.obj [])) = none) ∧
    (handlePptxToolCall
        (handlePptxToolCall (PptxState.mk [] 0 []) "add_slide" (J.obj [])).2
        "add_slide" (J.obj [])).1 = Except.ok (0, false) :=
  ⟨⟨by decide, rfl, rfl⟩,
    (coalesce_inflight_single_producer (PptxState.mk [] 0 []) "add_slide"
      (J.obj []) (J.obj []) (by decide) rfl rfl).2.1⟩

/-- C6: once an execution has settled its registry entry is removed exactly
once, even with two callers attached to the shared promise (the registry
returns to exactly its prior contents, so a single entry was inserted and a
single removal happened), and a handlePptxToolCall invocation arriving after
settlement invokes the producer again under a fresh promise: coalescing is
per in-flight window, not permanent memoization. -/
theorem post_settlement_reexecution (st : PptxState) (t : String) (a : J)
    (hreg : t ∈ registeredToolNames)
    (hnew : st.inFlightCalls.lookup (fingerprint t a) = none) :
    (settlePptxCall (handlePptxToolCall (handlePptxToolCall st t a).2 t a).2
        (fingerprint t a)).inFlightCalls = st.inFlightCalls ∧
    (handlePptxToolCall (settlePptxCall
        (handlePptxToolCall (handlePptxToolCall st t a).2 t a).2
        (fingerprint t a)) t a).1
      = Except.ok (st.nextPromiseId + 1, true) := by
  have h1 : handlePptxToolCall st t a
      = (Except.ok (st.nextPromiseId, true),
          { inFlightCalls := (fingerprint t a, st.nextPromiseId) :: st.inFlightCalls
            nextPromiseId := st.nextPromiseId + 1
            chainSubmitted := st.chainSubmitted ++ [st.nextPromiseId] }) := by
    simp [handlePptxToolCall, hreg, hnew]
  have h2 : (handlePptxToolCall (handlePptxToolCall st t a).2 t a).2
      = (handlePptxToolCall st t a).2 := by
    rw [h1]
    simp [handlePptxToolCall, hreg, List.lookup]
  rw [h2, h1]
  have h3 : settlePptxCall
      { inFlightCalls := (fingerprint t a, st.nextPromiseId) :: st.inFlightCalls
        nextPromiseId := st.nextPromiseId + 1
        chainSubmitted := st.chainSubmitted ++ [st.nextPromiseId] } (fingerprint t a)
      = { inFlightCalls := st.inFlightCalls
          nextPromiseId := st.nextPromiseId + 1
          chainSubmitted := st.chainSubmitted ++ [st.nextPromiseId] } := by
    simp [settlePptxCall, List.eraseP_cons_of_pos]
  rw [h3]
  exact ⟨rfl, by simp [handlePptxToolCall, hreg, hnew]⟩

theorem post_settlement_reexecution_witness :
    ("add_slide" ∈ registeredToolNames ∧
      (PptxState.mk [] 0 []).inFlightCalls.lookup
        (fingerprint "add_slide" (J.obj [])) = none) ∧
    (settlePptxCall
        (handlePptxToolCall
          (handlePptxToolCall (PptxState.mk [] 0 []) "add_slide" (J.obj [])).2
          "add_slide" (J.obj [])).2
        (fingerprint "add_slide" (J.obj []))).inFlightCalls = [] :=
  ⟨⟨by decide, rfl⟩,
    (post_settlement_reexecution (PptxState.mk [] 0 []) "add_slide" (J.obj [])
      (by decide) rfl).1⟩

/-- C7: dispatch of a tool name with no registered handler throws the
descriptive unknown-operation error naming the tool before anything else
happens: the in-flight registry, the promise supply and the execution chain
are all left exactly as they were, so no unit is enqueued and the engine is
never invoked. -/
theorem unknown_tool_rejected (st : PptxState) (t : String) (a : J)
    (hreg : t ∉ registeredToolNames) :
    handlePptxToolCall st t a
      = (Except.error ("Unknown PowerPoint tool: \"" ++ t ++ "\""), st) := by
  simp [handlePptxToolCall, hreg]

theorem unknown_tool_rejected_witness :
    ("make_coffee" ∉ registeredToolNames) ∧
    handlePptxToolCall (PptxState.mk [] 0 []) "make_coffee" J.null
      = (Except.error ("Unknown PowerPoint tool: \"make_coffee\""), PptxState.mk [] 0 []) :=
  ⟨by decide,
    unknown_tool_rejected (PptxState.mk [] 0 []) "make_coffee" J.null (by decide)⟩

/-- C8: the fingerprint is a deterministic function of the pair
(operation, arguments): equal inputs (even merely inputs with equal
serializations) always give the same key; and coalescing never produces a
false positive: for registered tool names the key is injective, so two
invocations with different (toolName, arguments) pairs never share an
in-flight execution: after the first registers its execution, the second
still starts a fresh execution of its own. -/
theorem fingerprint_deterministic_and_exact :
    (∀ (t1 t2 : String) (a1 a2 : J), t1 = t2 → ser a1 = ser a2 →
      fingerprint t1 a1 = fingerprint t2 a2) ∧
    (∀ (t1 t2 : String) (a1 a2 : J), t1 ∈ registeredToolNames →
      t2 ∈ registeredToolNames → fingerprint t1 a1 = fingerprint t2 a2 →
      t1 = t2 ∧ a1 = a2) ∧
    (∀ (st : PptxState) (t1 t2 : String) (a1 a2 : J),
      t1 ∈ registeredToolNames → t2 ∈ registeredToolNames →
      ¬(t1 = t2 ∧ a1 = a2) →
      st.inFlightCalls.lookup (fingerprint t1 a1) = none →
      st.inFlightCalls.lookup (fingerprint t2 a2) = none →
      (handlePptxToolCall (handlePptxToolCall st t1 a1).2 t2 a2).1
        = Except.ok (st.nextPromiseId + 1, true)) := by
  have hinj : ∀ (t1 t2 : String) (a1 a2 : J), t1 ∈ registeredToolNames →
      t2 ∈ registeredToolNames → fingerprint t1 a1 = fingerprint t2 a2 →
      t1 = t2 ∧ a1 = a2 := by
    intro t1 t2 a1 a2 h1 h2 h
    exact fingerprint_inj t1 t2 a1 a2 (registered_no_colon t1 h1)
      (registered_no_colon t2 h2) h
  refine ⟨?_, hinj, ?_⟩
  · intro t1 t2 a1 a2 ht hser
    simp [fingerprint, ht, hser]
  · intro st t1 t2 a1 a2 h1 h2 hne hl1 hl2
    have hfpne : (fingerprint t1 a1 == fingerprint t2 a2) = false := by
      rw [beq_eq_false_iff_ne]
      intro hfp
      exact hne (hinj t1 t2 a1 a2 h1 h2 hfp)
    have hfpne2 : (fingerprint t2 a2 == fingerprint t1 a1) = false := by
      rw [beq_eq_false_iff_ne]
      intro hfp
      have := hinj t2 t1 a2 a1 h2 h1 hfp
      exact hne ⟨this.1.symm, this.2.symm⟩
    have hcall1 : handlePptxToolCall st t1 a1
        = (Except.ok (st.nextPromiseId, true),
            { inFlightCalls := (fingerprint t1 a1, st.nextPromiseId) :: st.inFlightCalls
              nextPromiseId := st.nextPromiseId + 1
              chainSubmitted := st.chainSubmitted ++ [st.nextPromiseId] }) := by
      simp [handlePptxToolCall, h1, hl1]
    rw [hcall1]
    simp [handlePptxToolCall, h2, List.lookup, hfpne, hfpne2, hl2]

theorem fingerprint_deterministic_and_exact_witness :
    ("add_slide" ∈ registeredToolNames ∧ "delete_slide" ∈ registeredToolNames ∧
      ¬("add_slide" = "delete_slide" ∧ J.null = J.null) ∧
      (PptxState.mk [] 0 []).inFlightCalls.lookup
        (fingerprint "add_slide" J.null) = none ∧
      (PptxState.mk [] 0 []).inFlightCalls.lookup
        (fingerprint "delete_slide" J.null) = none) ∧
    (handlePptxToolCall
        (handlePptxToolCall (PptxState.mk [] 0 []) "add_slide" J.null).2
        "delete_slide" J.null).1 = Except.ok (1, true) :=
  ⟨⟨by decide, by decide, fun h => absurd h.1 (by decide), rfl, rfl⟩,
    fingerprint_deterministic_and_exact.2.2 (PptxState.mk [] 0 [])
      "add_slide" "delete_slide" J.null J.null (by decide) (by decide)
      (fun h => absurd h.1 (by decide)) rfl rfl⟩

/-! ## Claims about the serial execution queue -/
/-- C1: units submitted to serializeExecution start in submission order
(the start events of the chain trace are exactly 0..n-1 in order); in every
prefix of the trace a unit with a predecessor has started only if its
predecessor has already settled (fulfilled or rejected); and in every prefix
at most one unit has started but not settled, so the external engine never
has two operations in flight from this source. -/
theorem serial_queue_fifo {ε α : Type} (units : List (Except ε α)) :
    startsIn (runChain units 0) = List.range units.length ∧
    (∀ p m, m ∈ startsIn ((runChain units 0).take p) → 0 < m →
      (m - 1) ∈ settledIn ((runChain units 0).take p)) ∧
    (∀ p, (startsIn ((runChain units 0).take p)).length
      ≤ (settledIn ((runChain units 0).take p)).length + 1) := by
  refine ⟨?_, ?_, ?_⟩
  · rw [startsIn_runChain, ← List.range_eq_range']
  · intro p m hm h0
    exact ((chain_prefix_invariant units 0 p).2 m hm).2 h0
  · intro p
    exact (chain_prefix_invariant units 0 p).1

theorem serial_queue_fifo_witness :
    startsIn (runChain [Except.ok 1, Except.error "boom", Except.ok 2] 0)
      = List.range 3 ∧
    (1 ∈ startsIn ((runChain [Except.ok 1, Except.error "boom", Except.ok 2] 0).take 3)
      ∧ 0 < 1) ∧
    0 ∈ settledIn ((runChain [Except.ok 1, Except.error "boom", Except.ok 2] 0).take 3) :=
  ⟨(serial_queue_fifo [Except.ok 1, Except.error "boom", Except.ok 2]).1,
    ⟨by decide, by decide⟩,
    (serial_queue_fifo [Except.ok 1, Except.error "boom", Except.ok 2]).2.1 3 1
      (by decide) (by decide)⟩

/-- C2: when unit k rejects with reason e, the future returned to that
caller settles with exactly that reason; the chain cursor swallows the
rejection (its own settlement is a success whatever the unit's outcome);
every submitted unit, including those after k, still starts; and every
unit's caller future settles with that unit's own outcome, unaffected by
the rejection of unit k. -/
theorem failure_isolation {ε α : Type} (units : List (Except ε α)) (k : Nat) (e : ε)
    (hk : units.get? k = some (Except.error e)) :
    (k, (Except.error e : Except ε α)) ∈ outcomesIn (runChain units 0) ∧
    swallow (Except.error e : Except ε α) = Except.ok () ∧
    (∀ j, j < units.length → j ∈ startsIn (runChain units 0)) ∧
    (∀ j v, units.get? j = some v → (j, v) ∈ outcomesIn (runChain units 0)) := by
  refine ⟨?_, rfl, ?_, ?_⟩
  · rw [outcomesIn_runChain]
    simpa using get?_mem_enumFrom units 0 k _ hk
  · intro j hj
    rw [startsIn_runChain, ← List.range_eq_range']
    exact List.mem_range.mpr hj
  · intro j v hjv
    rw [outcomesIn_runChain]
    simpa using get?_mem_enumFrom units 0 j v hjv

theorem failure_isolation_witness :
    ([Except.ok 1, Except.error "boom", Except.ok 2].get? 1
      = some (Except.error "boom")) ∧
    (1, (Except.error "boom" : Except String Nat))
      ∈ outcomesIn (runChain [Except.ok 1, Except.error "boom", Except.ok 2] 0) ∧
    2 ∈ startsIn (runChain [Except.ok 1, Except.error "boom", Except.ok 2] 0) :=
  ⟨rfl,
    (failure_isolation [Except.ok 1, Except.error "boom", Except.ok 2] 1 "boom" rfl).1,
    (failure_isolation [Except.ok 1, Except.error "boom", Except.ok 2] 1 "boom" rfl).2.2.1
      2 (by decide)⟩

/-! ## Embed step lemmas -/
theorem fireEvictions_of_no_evictions (st : EState) (t : Nat)
    (h : st.evictions = []) : fireEvictions st t = st := by
  cases st
  simp only at h
  subst h
  simp [fireEvictions]

theorem handleMessage_toolCall_new (cfg : EmbedConfig) (st : EState)
    (rid tool : String) (args : J) (hc : cfg.hasOnToolCall = true)
    (hmem : rid ∉ st.handledRequestIds) :
    handleMessage cfg st
        ⟨cfg.iframeOrigin, cfg.iframeSource, EventData.toolCall rid tool args⟩
      = { st with
          handledRequestIds := rid :: st.handledRequestIds
          pendingToolCalls := rid :: st.pendingToolCalls
          invoked := st.invoked ++ [(rid, tool, args)] } := by
  simp [handleMessage, hmem, hc]

theorem handleMessage_toolCall_dup (cfg : EmbedConfig) (st : EState)
    (rid tool : String) (args : J) (hmem : rid ∈ st.handledRequestIds) :
    handleMessage cfg st
        ⟨cfg.iframeOrigin, cfg.iframeSource, EventData.toolCall rid tool args⟩
      = st := by
  simp [handleMessage, hmem]

theorem handleMessage_toolCall_no_handler (cfg : EmbedConfig) (st : EState)
    (rid tool : String) (args : J) (hc : cfg.hasOnToolCall = false)
    (hmem : rid ∉ st.handledRequestIds) :
    handleMessage cfg st
        ⟨cfg.iframeOrigin, cfg.iframeSource, EventData.toolCall rid tool args⟩
      = { st with handledRequestIds := rid :: st.handledRequestIds } := by
  simp [handleMessage, hmem, hc]

theorem settleToolCall_pending (st : EState) (rid : String) (out : Except String J)
    (now : Nat) (h : rid ∈ st.pendingToolCalls) :
    settleToolCall st rid out now
      = { st with
          pendingToolCalls := st.pendingToolCalls.erase rid
          sent := st.sent ++ [OutMsg.toolResponse rid
            (match out with
             | Except.ok v => RespBody.ok v
             | Except.error e => RespBody.fail e)]
          evictions := st.evictions ++ [(rid, now + 30000)] } := by
  simp [settleToolCall, h]

theorem runEmbed_append (cfg : EmbedConfig) (st : EState)
    (es1 es2 : List EmbedEvent) :
    runEmbed cfg st (es1 ++ es2) = runEmbed cfg (runEmbed cfg st es1) es2 := by
  simp [runEmbed, List.foldl_append]

/-! ## Claims about the transport bridge -/
/-- C9: an incoming message event that fails origin validation (the
configured origin is not "*" and the event origin differs), or whose source
window is not the embed's iframe contentWindow, or whose data is null, not
an object, or an object without a type field, changes no state and has no
effect: no outbound message is posted, no requestId is recorded, and no
callback is invoked. -/
theorem invalid_message_ignored (cfg : EmbedConfig) (st : EState) (ev : MsgEvent)
    (h : (cfg.iframeOrigin ≠ "*" ∧ ev.origin ≠ cfg.iframeOrigin)
      ∨ ev.source ≠ cfg.iframeSource
      ∨ ev.data = EventData.nullData ∨ ev.data = EventData.nonObject
      ∨ ev.data = EventData.objectNoType) :
    handleMessage cfg st ev = st := by
  by_cases hA : cfg.iframeOrigin ≠ "*" ∧ ev.origin ≠ cfg.iframeOrigin
  · simp [handleMessage, hA]
  by_cases hB : ev.source ≠ cfg.iframeSource
  · simp [handleMessage, hA, hB]
  rcases h with h | h | h | h | h
  · exact absurd h hA
  · exact absurd h hB
  · simp [handleMessage, hA, hB, h]
  · simp [handleMessage, hA, hB, h]
  · simp [handleMessage, hA, hB, h]

theorem invalid_message_ignored_witness :
    (("https://chat.usable.dev" : String) ≠ "*" ∧
      ("https://evil.example" : String) ≠ "https://chat.usable.dev") ∧
    handleMessage ⟨"https://chat.usable.dev", 0, true, true, true, true⟩ initEState
        ⟨"https://evil.example", 0, EventData.ready⟩
      = initEState :=
  ⟨⟨by decide, by decide⟩,
    invalid_message_ignored ⟨"https://chat.usable.dev", 0, true, true, true, true⟩
      initEState ⟨"https://evil.example", 0, EventData.ready⟩
      (Or.inl ⟨by decide, by decide⟩)⟩

theorem handleMessage_no_handler_effects (cfg : EmbedConfig)
    (hc : cfg.hasOnToolCall = false) (st : EState) (ev : MsgEvent) :
    (handleMessage cfg st ev).pendingToolCalls = st.pendingToolCalls ∧
    (handleMessage cfg st ev).evictions = st.evictions ∧
    (∀ rid, countResponses rid (handleMessage cfg st ev).sent
      = countResponses rid st.sent) ∧
    (∀ rid, rid ∈ st.handledRequestIds
      → rid ∈ (handleMessage cfg st ev).handledRequestIds) := by
  by_cases hA : cfg.iframeOrigin ≠ "*" ∧ ev.origin ≠ cfg.iframeOrigin
  · simp [handleMessage, hA]
  by_cases hB : ev.source ≠ cfg.iframeSource
  · simp [handleMessage, hA, hB]
  rcases ev with ⟨evo, evs, hd⟩
  cases hd with
  | nullData => simp [handleMessage, hA, hB]
  | nonObject => simp [handleMessage, hA, hB]
  | objectNoType => simp [handleMessage, hA, hB]
  | ready => simp [handleMessage, hA, hB]
  | toolCall rid2 tool args =>
    by_cases hmem : rid2 ∈ st.handledRequestIds
    · simp [handleMessage, hA, hB, hmem]
    · simp [handleMessage, hA, hB, hmem, hc]
      intro rid hr
      exact Or.inr hr
  | requestTokenRefresh =>
    by_cases href : cfg.hasOnTokenRefreshRequired = true
    · simp [handleMessage, hA, hB, href]
    · cases htok : st.cachedToken with
      | none => simp [handleMessage, hA, hB, href, htok]
      | some tok =>
        refine ⟨by simp [handleMessage, hA, hB, href, htok],
          by simp [handleMessage, hA, hB, href, htok], ?_,
          by simp [handleMessage, hA, hB, href, htok]⟩
        intro rid
        simp [handleMessage, hA, hB, href, htok, countResponses,
          List.countP_append, List.countP_cons, List.countP_nil]
  | errorMsg code msg =>
    by_cases herr : cfg.hasOnError = true
    · simp [handleMessage, hA, hB, herr]
    · simp [handleMessage, hA, hB, herr]
  | conversationChanged cid =>
    by_cases hcc : cfg.hasOnConversationChange = true
    · simp [handleMessage, hA, hB, hcc]
    · simp [handleMessage, hA, hB, hcc]
  | otherType ty => simp [handleMessage, hA, hB]

theorem no_handler_invariant (cfg : EmbedConfig) (hc : cfg.hasOnToolCall = false)
    (events : List EmbedEvent) (st : EState)
    (h1 : st.pendingToolCalls = []) (h2 : st.evictions = []) :
    (runEmbed cfg st events).pendingToolCalls = [] ∧
    (runEmbed cfg st events).evictions = [] ∧
    (∀ rid, countResponses rid (runEmbed cfg st events).sent
      = countResponses rid st.sent) ∧
    (∀ rid, rid ∈ st.handledRequestIds
      → rid ∈ (runEmbed cfg st events).handledRequestIds) := by
  induction events generalizing st with
  | nil => exact ⟨h1, h2, fun _ => rfl, fun _ h => h⟩
  | cons e rest ih =>
    have hstep : (estep cfg st e).pendingToolCalls = [] ∧
        (estep cfg st e).evictions = [] ∧
        (∀ rid, countResponses rid (estep cfg st e).sent
          = countResponses rid st.sent) ∧
        (∀ rid, rid ∈ st.handledRequestIds
          → rid ∈ (estep cfg st e).handledRequestIds) := by
      cases e with
      | recv ev t =>
        rw [show estep cfg st (EmbedEvent.recv ev t)
            = handleMessage cfg (fireEvictions st t) ev from rfl,
          fireEvictions_of_no_evictions st t h2]
        have := handleMessage_no_handler_effects cfg hc st ev
        exact ⟨by rw [this.1, h1], by rw [this.2.1, h2], this.2.2.1, this.2.2.2⟩
      | settle rid out t =>
        rw [show estep cfg st (EmbedEvent.settle rid out t)
            = settleToolCall (fireEvictions st t) rid out t from rfl,
          fireEvictions_of_no_evictions st t h2]
        have hnp : rid ∉ st.pendingToolCalls := by rw [h1]; simp
        rw [show settleToolCall st rid out t = st from by simp [settleToolCall, hnp]]
        exact ⟨h1, h2, fun _ => rfl, fun _ h => h⟩
    have ihr := ih (estep cfg st e) hstep.1 hstep.2.1
    refine ⟨ihr.1, ihr.2.1, ?_, ?_⟩
    · intro rid
      rw [show runEmbed cfg st (e :: rest) = runEmbed cfg (estep cfg st e) rest from rfl]
      rw [ihr.2.2.1 rid, hstep.2.2.1 rid]
    · intro rid hr
      rw [show runEmbed cfg st (e :: rest) = runEmbed cfg (estep cfg st e) rest from rfl]
      exact ihr.2.2.2 rid (hstep.2.2.2 rid hr)

/-- C10: when the embed is constructed without an onToolCall handler, an
admitted TOOL_CALL still gets its requestId inserted into
handledRequestIds, no TOOL_RESPONSE is ever sent (over any continuation of
the trace), no eviction is ever scheduled, and therefore the requestId is
retained indefinitely: it stays recorded over any further events, and every
later delivery carrying it is suppressed as a no-op, forever. -/
theorem no_handler_retention (cfg : EmbedConfig) (hc : cfg.hasOnToolCall = false)
    (events : List EmbedEvent) :
    (runEmbed cfg initEState events).pendingToolCalls = [] ∧
    (runEmbed cfg initEState events).evictions = [] ∧
    (∀ rid, countResponses rid (runEmbed cfg initEState events).sent = 0) ∧
    (∀ (more : List EmbedEvent) (rid : String),
      rid ∈ (runEmbed cfg initEState events).handledRequestIds →
      rid ∈ (runEmbed cfg initEState (events ++ more)).handledRequestIds) ∧
    (∀ (rid tool : String) (args : J) (t : Nat),
      rid ∉ (runEmbed cfg initEState events).handledRequestIds →
      rid ∈ (runEmbed cfg initEState (events ++ [EmbedEvent.recv
        ⟨cfg.iframeOrigin, cfg.iframeSource, EventData.toolCall rid tool args⟩
        t])).handledRequestIds) ∧
    (∀ (rid tool : String) (args : J) (t : Nat),
      rid ∈ (runEmbed cfg initEState events).handledRequestIds →
      runEmbed cfg initEState (events ++ [EmbedEvent.recv
        ⟨cfg.iframeOrigin, cfg.iframeSource, EventData.toolCall rid tool args⟩ t])
        = runEmbed cfg initEState events) := by
  have inv := no_handler_invariant cfg hc events initEState rfl rfl
  have hcount : ∀ rid, countResponses rid (runEmbed cfg initEState events).sent = 0 := by
    intro rid
    rw [inv.2.2.1 rid]
    simp [initEState, countResponses]
  refine ⟨inv.1, inv.2.1, hcount, ?_, ?_, ?_⟩
  · intro more rid hr
    rw [runEmbed_append]
    exact (no_handler_invariant cfg hc more _ inv.1 inv.2.1).2.2.2 rid hr
  · intro rid tool args t hnot
    rw [runEmbed_append]
    rw [show runEmbed cfg (runEmbed cfg initEState events) [EmbedEvent.recv
        ⟨cfg.iframeOrigin, cfg.iframeSource, EventData.toolCall rid tool args⟩ t]
      = estep cfg (runEmbed cfg initEState events) (EmbedEvent.recv
        ⟨cfg.iframeOrigin, cfg.iframeSource, EventData.toolCall rid tool args⟩ t)
      from rfl]
    rw [show estep cfg (runEmbed cfg initEState events) (EmbedEvent.recv
        ⟨cfg.iframeOrigin, cfg.iframeSource, EventData.toolCall rid tool args⟩ t)
      = handleMessage cfg (fireEvictions (runEmbed cfg initEState events) t)
        ⟨cfg.iframeOrigin, cfg.iframeSource, EventData.toolCall rid tool args⟩
      from rfl]
    rw [fireEvictions_of_no_evictions _ t inv.2.1]
    rw [handleMessage_toolCall_no_handler cfg _ rid tool args hc hnot]
    simp
  · intro rid tool args t hr
    rw [runEmbed_append]
    rw [show runEmbed cfg (runEmbed cfg initEState events) [EmbedEvent.recv
        ⟨cfg.iframeOrigin, cfg.iframeSource, EventData.toolCall rid tool args⟩ t]
      = estep cfg (runEmbed cfg initEState events) (EmbedEvent.recv
        ⟨cfg.iframeOrigin, cfg.iframeSource, EventData.toolCall rid tool args⟩ t)
      from rfl]
    rw [show estep cfg (runEmbed cfg initEState events) (EmbedEvent.recv
        ⟨cfg.iframeOrigin, cfg.iframeSource, EventData.toolCall rid tool args⟩ t)
      = handleMessage cfg (fireEvictions (runEmbed cfg initEState events) t)
        ⟨cfg.iframeOrigin, cfg.iframeSource, EventData.toolCall rid tool args⟩
      from rfl]
    rw [fireEvictions_of_no_evictions _ t inv.2.1]
    exact handleMessage_toolCall_dup cfg _ rid tool args hr

theorem no_handler_retention_witness :
    ((⟨"*", 0, false, false, false, false⟩ : EmbedConfig).hasOnToolCall = false ∧
      "r1" ∈ (runEmbed ⟨"*", 0, false, false, false, false⟩ initEState
        [EmbedEvent.recv ⟨"*", 0, EventData.toolCall "r1" "add_slide" J.null⟩ 0]
        ).handledRequestIds) ∧
    countResponses "r1" (runEmbed ⟨"*", 0, false, false, false, false⟩ initEState
      [EmbedEvent.recv ⟨"*", 0, EventData.toolCall "r1" "add_slide" J.null⟩ 0]).sent
      = 0 ∧
    runEmbed ⟨"*", 0, false, false, false, false⟩ initEState
      ([EmbedEvent.recv ⟨"*", 0, EventData.toolCall "r1" "add_slide" J.null⟩ 0]
        ++ [EmbedEvent.recv ⟨"*", 0, EventData.toolCall "r1" "set_layout" J.null⟩
          99999999])
      = runEmbed ⟨"*", 0, false, false, false, false⟩ initEState
        [EmbedEvent.recv ⟨"*", 0, EventData.toolCall "r1" "add_slide" J.null⟩ 0] :=
  ⟨⟨rfl, by decide⟩,
    (no_handler_retention ⟨"*", 0, false, false, false, false⟩ rfl
      [EmbedEvent.recv ⟨"*", 0, EventData.toolCall "r1" "add_slide" J.null⟩ 0]
      ).2.2.1 "r1",
    (no_handler_retention ⟨"*", 0, false, false, false, false⟩ rfl
      [EmbedEvent.recv ⟨"*", 0, EventData.toolCall "r1" "add_slide" J.null⟩ 0]
      ).2.2.2.2.2 "r1" "set_layout" J.null 99999999 (by decide)⟩

/-! ## Response accounting -/
theorem handleMessage_accounting (cfg : EmbedConfig) (st : EState) (ev : MsgEvent)
    (rid : String) :
    countResponses rid (handleMessage cfg st ev).sent
      + (handleMessage cfg st ev).pendingToolCalls.count rid
      + countInvoked rid st.invoked
    = countResponses rid st.sent + st.pendingToolCalls.count rid
      + countInvoked rid (handleMessage cfg st ev).invoked := by
  by_cases hA : cfg.iframeOrigin ≠ "*" ∧ ev.origin ≠ cfg.iframeOrigin
  · simp [handleMessage, hA]
  by_cases hB : ev.source ≠ cfg.iframeSource
  · simp [handleMessage, hA, hB]
  rcases ev with ⟨evo, evs, hd⟩
  cases hd with
  | nullData => simp [handleMessage, hA, hB]
  | nonObject => simp [handleMessage, hA, hB]
  | objectNoType => simp [handleMessage, hA, hB]
  | ready => simp [handleMessage, hA, hB]
  | toolCall rid2 tool args =>
    by_cases hmem : rid2 ∈ st.handledRequestIds
    · simp [handleMessage, hA, hB, hmem]
    · by_cases hc : cfg.hasOnToolCall = true
      · simp only [handleMessage, hA, hB, hmem, hc]
        simp [List.count_cons, countInvoked, List.countP_append, List.countP_cons,
          List.countP_nil]
        omega
      · simp [handleMessage, hA, hB, hmem, hc]
  | requestTokenRefresh =>
    by_cases href : cfg.hasOnTokenRefreshRequired = true
    · simp [handleMessage, hA, hB, href]
    · cases htok : st.cachedToken with
      | none => simp [handleMessage, hA, hB, href, htok]
      | some tok =>
        simp [handleMessage, hA, hB, href, htok, countResponses,
          List.countP_append, List.countP_cons, List.countP_nil]
  | errorMsg code msg =>
    by_cases herr : cfg.hasOnError = true
    · simp [handleMessage, hA, hB, herr]
    · simp [handleMessage, hA, hB, herr]
  | conversationChanged cid =>
    by_cases hcc : cfg.hasOnConversationChange = true
    · simp [handleMessage, hA, hB, hcc]
    · simp [handleMessage, hA, hB, hcc]
  | otherType ty => simp [handleMessage, hA, hB]

theorem settleToolCall_accounting (st : EState) (rid2 : String)
    (out : Except String J) (now : Nat) (rid : String) :
    countResponses rid (settleToolCall st rid2 out now).sent
      + (settleToolCall st rid2 out now).pendingToolCalls.count rid
    = countResponses rid st.sent + st.pendingToolCalls.count rid := by
  by_cases hp : rid2 ∈ st.pendingToolCalls
  · rw [settleToolCall_pending st rid2 out now hp]
    by_cases heq : rid2 = rid
    · subst heq
      have hcnt : (st.pendingToolCalls.erase rid2).count rid2
          = st.pendingToolCalls.count rid2 - 1 := List.count_erase_self rid2 _
      have hpos : 0 < st.pendingToolCalls.count rid2 := List.count_pos_iff.mpr hp
      simp [countResponses, List.countP_append, List.countP_cons, List.countP_nil,
        hcnt]
      omega
    · have hcnt : (st.pendingToolCalls.erase rid2).count rid
          = st.pendingToolCalls.count rid :=
        List.count_erase_of_ne (fun h => heq h.symm) _
      have hbeq : (rid2 == rid) = false := by
        simp [heq]
      simp [countResponses, List.countP_append, List.countP_cons, List.countP_nil,
        hcnt, hbeq]
  · simp [settleToolCall, hp]

theorem response_accounting (cfg : EmbedConfig) (events : List EmbedEvent)
    (rid : String) :
    countResponses rid (runEmbed cfg initEState events).sent
      + (runEmbed cfg initEState events).pendingToolCalls.count rid
    = countInvoked rid (runEmbed cfg initEState events).invoked := by
  have H : ∀ (es : List EmbedEvent) (st : EState),
      countResponses rid (runEmbed cfg st es).sent
        + (runEmbed cfg st es).pendingToolCalls.count rid
        + countInvoked rid st.invoked
      = countResponses rid st.sent + st.pendingToolCalls.count rid
        + countInvoked rid (runEmbed cfg st es).invoked := by
    intro es
    induction es with
    | nil => intro st; rfl
    | cons e rest ih =>
      intro st
      have hrun : runEmbed cfg st (e :: rest) = runEmbed cfg (estep cfg st e) rest := rfl
      have hstep : countResponses rid (estep cfg st e).sent
          + (estep cfg st e).pendingToolCalls.count rid
          + countInvoked rid st.invoked
          = countResponses rid st.sent + st.pendingToolCalls.count rid
            + countInvoked rid (estep cfg st e).invoked := by
        cases e with
        | recv ev t =>
          have h1 : (fireEvictions st t).sent = st.sent := rfl
          have h2 : (fireEvictions st t).pendingToolCalls = st.pendingToolCalls := rfl
          have h3 : (fireEvictions st t).invoked = st.invoked := rfl
          have := handleMessage_accounting cfg (fireEvictions st t) ev rid
          rw [h1, h2, h3] at this
          exact this
        | settle rid2 out t =>
          have h1 : (fireEvictions st t).sent = st.sent := rfl
          have h2 : (fireEvictions st t).pendingToolCalls = st.pendingToolCalls := rfl
          have h3 : (fireEvictions st t).invoked = st.invoked := rfl
          have hs := settleToolCall_accounting (fireEvictions st t) rid2 out t rid
          rw [h1, h2] at hs
          have hinv : (settleToolCall (fireEvictions st t) rid2 out t).invoked
              = st.invoked := by
            by_cases hp : rid2 ∈ (fireEvictions st t).pendingToolCalls
            · rw [settleToolCall_pending _ rid2 out t hp]
              exact h3
            · rw [show settleToolCall (fireEvictions st t) rid2 out t
                  = fireEvictions st t from by simp [settleToolCall, hp]]
              exact h3
          rw [show estep cfg st (EmbedEvent.settle rid2 out t)
            = settleToolCall (fireEvictions st t) rid2 out t from rfl, hinv, hs]
      have ihs := ih (estep cfg st e)
      rw [hrun]
      omega
  have h0 := H events initEState
  have e1 : countInvoked rid initEState.invoked = 0 := rfl
  have e2 : countResponses rid initEState.sent = 0 := rfl
  have e3 : initEState.pendingToolCalls.count rid = 0 := rfl
  rw [e1, e2, e3] at h0
  omega

/-- C5 counterexample: an embed constructed without an onToolCall handler
admits the TOOL_CALL (the requestId is recorded, the delivery is not
suppressed as a duplicate), yet no TOOL_RESPONSE keyed by that requestId is
ever sent, now or after any further events — so, as stated, "for every
admitted inbound TOOL_CALL delivery exactly one TOOL_RESPONSE is ever sent"
fails on the code. -/
theorem exactly_one_response_counterexample :
    "r1" ∈ (runEmbed ⟨"*", 0, false, false, false, false⟩ initEState
      [EmbedEvent.recv ⟨"*", 0, EventData.toolCall "r1" "add_slide" J.null⟩ 0]
      ).handledRequestIds ∧
    respondsNever ⟨"*", 0, false, false, false, false⟩
      (runEmbed ⟨"*", 0, false, false, false, false⟩ initEState
        [EmbedEvent.recv ⟨"*", 0, EventData.toolCall "r1" "add_slide" J.null⟩ 0])
      "r1" := by
  constructor
  · decide
  · intro events
    have hinv := no_handler_invariant ⟨"*", 0, false, false, false, false⟩ rfl events
      (runEmbed ⟨"*", 0, false, false, false, false⟩ initEState
        [EmbedEvent.recv ⟨"*", 0, EventData.toolCall "r1" "add_slide" J.null⟩ 0])
      rfl rfl
    rw [hinv.2.2.1 "r1"]
    rfl

/-- C5 (amended): provided an onToolCall handler is configured, a TOOL_CALL
delivery that is admitted, redelivered once while still pending, and whose
handler then settles, produces exactly one TOOL_RESPONSE keyed by its
requestId, carrying success true with the result or success false with the
error string, and the underlying operation is invoked exactly once; and in
general, whenever no handler invocation for a requestId is still pending,
the number of TOOL_RESPONSE messages keyed by it equals the number of
onToolCall invocations for it. -/
theorem exactly_one_response_amended (cfg : EmbedConfig)
    (hc : cfg.hasOnToolCall = true) (rid tool tool2 : String) (args args2 : J)
    (out : Except String J) (t0 t1 t2 : Nat) :
    countResponses rid (runEmbed cfg initEState
      [EmbedEvent.recv ⟨cfg.iframeOrigin, cfg.iframeSource,
        EventData.toolCall rid tool args⟩ t0,
       EmbedEvent.recv ⟨cfg.iframeOrigin, cfg.iframeSource,
        EventData.toolCall rid tool2 args2⟩ t1,
       EmbedEvent.settle rid out t2]).sent = 1 ∧
    countInvoked rid (runEmbed cfg initEState
      [EmbedEvent.recv ⟨cfg.iframeOrigin, cfg.iframeSource,
        EventData.toolCall rid tool args⟩ t0,
       EmbedEvent.recv ⟨cfg.iframeOrigin, cfg.iframeSource,
        EventData.toolCall rid tool2 args2⟩ t1,
       EmbedEvent.settle rid out t2]).invoked = 1 ∧
    (runEmbed cfg initEState
      [EmbedEvent.recv ⟨cfg.iframeOrigin, cfg.iframeSource,
        EventData.toolCall rid tool args⟩ t0,
       EmbedEvent.recv ⟨cfg.iframeOrigin, cfg.iframeSource,
        EventData.toolCall rid tool2 args2⟩ t1,
       EmbedEvent.settle rid out t2]).sent
      = [OutMsg.toolResponse rid (match out with
          | Except.ok v => RespBody.ok v
          | Except.error e => RespBody.fail e)] ∧
    (∀ (events : List EmbedEvent) (rid2 : String),
      (runEmbed cfg initEState events).pendingToolCalls.count rid2 = 0 →
      countResponses rid2 (runEmbed cfg initEState events).sent
        = countInvoked rid2 (runEmbed cfg initEState events).invoked) := by
  have hfinal : runEmbed cfg initEState
      [EmbedEvent.recv ⟨cfg.iframeOrigin, cfg.iframeSource,
        EventData.toolCall rid tool args⟩ t0,
       EmbedEvent.recv ⟨cfg.iframeOrigin, cfg.iframeSource,
        EventData.toolCall rid tool2 args2⟩ t1,
       EmbedEvent.settle rid out t2]
      = { isReady := false, readyQueue := 0, cachedToken := none,
          handledRequestIds := [rid], pendingToolCalls := [],
          evictions := [(rid, t2 + 30000)],
          sent := [OutMsg.toolResponse rid (match out with
            | Except.ok v => RespBody.ok v
            | Except.error e => RespBody.fail e)],
          callbacks := [], invoked := [(rid, tool, args)] } := by
    rw [show runEmbed cfg initEState
        [EmbedEvent.recv ⟨cfg.iframeOrigin, cfg.iframeSource,
          EventData.toolCall rid tool args⟩ t0,
         EmbedEvent.recv ⟨cfg.iframeOrigin, cfg.iframeSource,
          EventData.toolCall rid tool2 args2⟩ t1,
         EmbedEvent.settle rid out t2]
      = estep cfg (estep cfg (estep cfg initEState
          (EmbedEvent.recv ⟨cfg.iframeOrigin, cfg.iframeSource,
            EventData.toolCall rid tool args⟩ t0))
          (EmbedEvent.recv ⟨cfg.iframeOrigin, cfg.iframeSource,
            EventData.toolCall rid tool2 args2⟩ t1))
          (EmbedEvent.settle rid out t2) from rfl]
    rw [show estep cfg initEState (EmbedEvent.recv ⟨cfg.iframeOrigin,
        cfg.iframeSource, EventData.toolCall rid tool args⟩ t0)
      = handleMessage cfg (fireEvictions initEState t0) ⟨cfg.iframeOrigin,
        cfg.iframeSource, EventData.toolCall rid tool args⟩ from rfl]
    rw [fireEvictions_of_no_evictions _ _ rfl]
    rw [handleMessage_toolCall_new cfg initEState rid tool args hc
      (by simp [initEState])]
    rw [show estep cfg ({ initEState with
        handledRequestIds := rid :: initEState.handledRequestIds
        pendingToolCalls := rid :: initEState.pendingToolCalls
        invoked := initEState.invoked ++ [(rid, tool, args)] })
        (EmbedEvent.recv ⟨cfg.iframeOrigin, cfg.iframeSource,
          EventData.toolCall rid tool2 args2⟩ t1)
      = handleMessage cfg (fireEvictions ({ initEState with
          handledRequestIds := rid :: initEState.handledRequestIds
          pendingToolCalls := rid :: initEState.pendingToolCalls
          invoked := initEState.invoked ++ [(rid, tool, args)] }) t1)
        ⟨cfg.iframeOrigin, cfg.iframeSource,
          EventData.toolCall rid tool2 args2⟩ from rfl]
    rw [fireEvictions_of_no_evictions _ _ rfl]
    rw [handleMessage_toolCall_dup cfg _ rid tool2 args2 (by simp [initEState])]
    rw [show estep cfg ({ initEState with
        handledRequestIds := rid :: initEState.handledRequestIds
        pendingToolCalls := rid :: initEState.pendingToolCalls
        invoked := initEState.invoked ++ [(rid, tool, args)] })
        (EmbedEvent.settle rid out t2)
      = settleToolCall (fireEvictions ({ initEState with
          handledRequestIds := rid :: initEState.handledRequestIds
          pendingToolCalls := rid :: initEState.pendingToolCalls
          invoked := initEState.invoked ++ [(rid, tool, args)] }) t2) rid out t2
      from rfl]
    rw [fireEvictions_of_no_evictions _ _ rfl]
    rw [settleToolCall_pending _ rid out t2 (by simp [initEState])]
    simp [initEState]
  refine ⟨?_, ?_, ?_, ?_⟩
  · rw [hfinal]
    simp [countResponses, List.countP_cons, List.countP_nil]
  · rw [hfinal]
    simp [countInvoked, List.countP_cons, List.countP_nil]
  · rw [hfinal]
  · intro events rid2 hpend
    have := response_accounting cfg events rid2
    omega

theorem exactly_one_response_amended_witness :
    ((⟨"*", 7, true, false, false, false⟩ : EmbedConfig).hasOnToolCall = true) ∧
    countResponses "r9" (runEmbed ⟨"*", 7, true, false, false, false⟩ initEState
      [EmbedEvent.recv ⟨"*", 7, EventData.toolCall "r9" "get_slide" J.null⟩ 5,
       EmbedEvent.recv ⟨"*", 7, EventData.toolCall "r9" "get_slide" J.null⟩ 6,
       EmbedEvent.settle "r9" (Except.ok J.null) 10]).sent = 1 ∧
    countInvoked "r9" (runEmbed ⟨"*", 7, true, false, false, false⟩ initEState
      [EmbedEvent.recv ⟨"*", 7, EventData.toolCall "r9" "get_slide" J.null⟩ 5,
       EmbedEvent.recv ⟨"*", 7, EventData.toolCall "r9" "get_slide" J.null⟩ 6,
       EmbedEvent.settle "r9" (Except.ok J.null) 10]).invoked = 1 :=
  ⟨rfl,
    (exactly_one_response_amended ⟨"*", 7, true, false, false, false⟩ rfl
      "r9" "get_slide" "get_slide" J.null J.null (Except.ok J.null) 5 6 10).1,
    (exactly_one_response_amended ⟨"*", 7, true, false, false, false⟩ rfl
      "r9" "get_slide" "get_slide" J.null J.null (Except.ok J.null) 5 6 10).2.1⟩

/-- C4 counterexample: the requestId is admitted at time 0, the handler
settles at 20000, and the same requestId is redelivered at 35000 — after
the claimed admission-based window (0 + 30000) has expired.  The claim says
this late admit returns true and is processed as a new request; the code
still suppresses it, because the eviction is scheduled only at settlement
(due at 20000 + 30000 = 50000): the delivery changes nothing and the
operation has still been processed exactly once. -/
theorem dedup_window_counterexample :
    (0 : Nat) + 30000 < 35000 ∧
    runEmbed ⟨"*", 0, true, false, false, false⟩ initEState
      [EmbedEvent.recv ⟨"*", 0, EventData.toolCall "r1" "add_slide" J.null⟩ 0,
       EmbedEvent.settle "r1" (Except.ok J.null) 20000,
       EmbedEvent.recv ⟨"*", 0, EventData.toolCall "r1" "add_slide" J.null⟩ 35000]
      = runEmbed ⟨"*", 0, true, false, false, false⟩ initEState
        [EmbedEvent.recv ⟨"*", 0, EventData.toolCall "r1" "add_slide" J.null⟩ 0,
         EmbedEvent.settle "r1" (Except.ok J.null) 20000] ∧
    countInvoked "r1" (runEmbed ⟨"*", 0, true, false, false, false⟩ initEState
      [EmbedEvent.recv ⟨"*", 0, EventData.toolCall "r1" "add_slide" J.null⟩ 0,
       EmbedEvent.settle "r1" (Except.ok J.null) 20000,
       EmbedEvent.recv ⟨"*", 0, EventData.toolCall "r1" "add_slide" J.null⟩ 35000]
      ).invoked = 1 :=
  ⟨by decide, rfl, rfl⟩

/-- C4 (amended): admitting the same requestId twice while its Delivered-ID
record is retained processes it once: the first delivery is admitted and
handled, the duplicate changes nothing.  No expiry is attached at
admission: after the first delivery alone no eviction is scheduled; the
eviction is scheduled when the handler settles, with expiry = settlement
time + 30000 ms.  A delivery of the same requestId arriving at or after
that settlement-based expiry is admitted again and processed as a new,
distinct request. -/
theorem dedup_window_amended (cfg : EmbedConfig) (hc : cfg.hasOnToolCall = true)
    (rid tool tool2 tool3 : String) (args args2 args3 : J)
    (out : Except String J) (t0 t1 t2 t3 : Nat) (hlate : t2 + 30000 ≤ t3) :
    runEmbed cfg initEState
      [EmbedEvent.recv ⟨cfg.iframeOrigin, cfg.iframeSource,
        EventData.toolCall rid tool args⟩ t0,
       EmbedEvent.recv ⟨cfg.iframeOrigin, cfg.iframeSource,
        EventData.toolCall rid tool2 args2⟩ t1]
      = runEmbed cfg initEState
        [EmbedEvent.recv ⟨cfg.iframeOrigin, cfg.iframeSource,
          EventData.toolCall rid tool args⟩ t0] ∧
    (runEmbed cfg initEState
      [EmbedEvent.recv ⟨cfg.iframeOrigin, cfg.iframeSource,
        EventData.toolCall rid tool args⟩ t0]).evictions = [] ∧
    (runEmbed cfg initEState
      [EmbedEvent.recv ⟨cfg.iframeOrigin, cfg.iframeSource,
        EventData.toolCall rid tool args⟩ t0,
       EmbedEvent.recv ⟨cfg.iframeOrigin, cfg.iframeSource,
        EventData.toolCall rid tool2 args2⟩ t1,
       EmbedEvent.settle rid out t2]).evictions = [(rid, t2 + 30000)] ∧
    countInvoked rid (runEmbed cfg initEState
      [EmbedEvent.recv ⟨cfg.iframeOrigin, cfg.iframeSource,
        EventData.toolCall rid tool args⟩ t0,
       EmbedEvent.recv ⟨cfg.iframeOrigin, cfg.iframeSource,
        EventData.toolCall rid tool2 args2⟩ t1,
       EmbedEvent.settle rid out t2,
       EmbedEvent.recv ⟨cfg.iframeOrigin, cfg.iframeSource,
        EventData.toolCall rid tool3 args3⟩ t3]).invoked = 2 := by
  have h12 : runEmbed cfg initEState
      [EmbedEvent.recv ⟨cfg.iframeOrigin, cfg.iframeSource,
        EventData.toolCall rid tool args⟩ t0]
      = { isReady := false, readyQueue := 0, cachedToken := none,
          handledRequestIds := [rid], pendingToolCalls := [rid], evictions := [],
          sent := [], callbacks := [], invoked := [(rid, tool, args)] } := by
    simp only [runEmbed, List.foldl, estep]
    rw [fireEvictions_of_no_evictions _ _ rfl]
    rw [handleMessage_toolCall_new cfg initEState rid tool args hc
      (by simp [initEState])]
    simp [initEState]
  have ha : runEmbed cfg initEState
      [EmbedEvent.recv ⟨cfg.iframeOrigin, cfg.iframeSource,
        EventData.toolCall rid tool args⟩ t0,
       EmbedEvent.recv ⟨cfg.iframeOrigin, cfg.iframeSource,
        EventData.toolCall rid tool2 args2⟩ t1]
      = { isReady := false, readyQueue := 0, cachedToken := none,
          handledRequestIds := [rid], pendingToolCalls := [rid], evictions := [],
          sent := [], callbacks := [], invoked := [(rid, tool, args)] } := by
    have hsplit : runEmbed cfg initEState
        [EmbedEvent.recv ⟨cfg.iframeOrigin, cfg.iframeSource,
          EventData.toolCall rid tool args⟩ t0,
         EmbedEvent.recv ⟨cfg.iframeOrigin, cfg.iframeSource,
          EventData.toolCall rid tool2 args2⟩ t1]
        = estep cfg (runEmbed cfg initEState
            [EmbedEvent.recv ⟨cfg.iframeOrigin, cfg.iframeSource,
              EventData.toolCall rid tool args⟩ t0])
            (EmbedEvent.recv ⟨cfg.iframeOrigin, cfg.iframeSource,
              EventData.toolCall rid tool2 args2⟩ t1) := rfl
    rw [hsplit, h12]
    simp only [estep]
    rw [fireEvictions_of_no_evictions _ _ rfl]
    exact handleMessage_toolCall_dup cfg _ rid tool2 args2 (by simp)
  have hb : runEmbed cfg initEState
      [EmbedEvent.recv ⟨cfg.iframeOrigin, cfg.iframeSource,
        EventData.toolCall rid tool args⟩ t0,
       EmbedEvent.recv ⟨cfg.iframeOrigin, cfg.iframeSource,
        EventData.toolCall rid tool2 args2⟩ t1,
       EmbedEvent.settle rid out t2]
      = { isReady := false, readyQueue := 0, cachedToken := none,
          handledRequestIds := [rid], pendingToolCalls := [],
          evictions := [(rid, t2 + 30000)],
          sent := [OutMsg.toolResponse rid (match out with
            | Except.ok v => RespBody.ok v
            | Except.error e => RespBody.fail e)],
          callbacks := [], invoked := [(rid, tool, args)] } := by
    have hsplit : runEmbed cfg initEState
        [EmbedEvent.recv ⟨cfg.iframeOrigin, cfg.iframeSource,
          EventData.toolCall rid tool args⟩ t0,
         EmbedEvent.recv ⟨cfg.iframeOrigin, cfg.iframeSource,
          EventData.toolCall rid tool2 args2⟩ t1,
         EmbedEvent.settle rid out t2]
        = estep cfg (runEmbed cfg initEState
            [EmbedEvent.recv ⟨cfg.iframeOrigin, cfg.iframeSource,
              EventData.toolCall rid tool args⟩ t0,
             EmbedEvent.recv ⟨cfg.iframeOrigin, cfg.iframeSource,
              EventData.toolCall rid tool2 args2⟩ t1])
            (EmbedEvent.settle rid out t2) := rfl
    rw [hsplit, ha]
    simp only [estep]
    rw [fireEvictions_of_no_evictions _ _ rfl]
    rw [settleToolCall_pending _ rid out t2 (by simp)]
    simp
  refine ⟨by rw [ha, h12], by rw [h12], by rw [hb], ?_⟩
  have hsplit : runEmbed cfg initEState
      [EmbedEvent.recv ⟨cfg.iframeOrigin, cfg.iframeSource,
        EventData.toolCall rid tool args⟩ t0,
       EmbedEvent.recv ⟨cfg.iframeOrigin, cfg.iframeSource,
        EventData.toolCall rid tool2 args2⟩ t1,
       EmbedEvent.settle rid out t2,
       EmbedEvent.recv ⟨cfg.iframeOrigin, cfg.iframeSource,
        EventData.toolCall rid tool3 args3⟩ t3]
      = estep cfg (runEmbed cfg initEState
          [EmbedEvent.recv ⟨cfg.iframeOrigin, cfg.iframeSource,
            EventData.toolCall rid tool args⟩ t0,
           EmbedEvent.recv ⟨cfg.iframeOrigin, cfg.iframeSource,
            EventData.toolCall rid tool2 args2⟩ t1,
           EmbedEvent.settle rid out t2])
          (EmbedEvent.recv ⟨cfg.iframeOrigin, cfg.iframeSource,
            EventData.toolCall rid tool3 args3⟩ t3) := rfl
  rw [hsplit, hb]
  simp only [estep, fireEvictions]
  simp only [List.any_cons, List.any_nil, List.filter_cons, List.filter_nil]
  have hdec : decide (t2 + 30000 ≤ t3) = true := decide_eq_true hlate
  simp only [hdec, beq_self_eq_true, Bool.true_and, Bool.or_false, Bool.not_true,
    Bool.false_eq_true, if_false, Bool.not_false, if_true]
  rw [handleMessage_toolCall_new cfg _ rid tool3 args3 hc (by simp)]
  simp [countInvoked, List.countP_append, List.countP_cons, List.countP_nil]

theorem dedup_window_amended_witness :
    ((⟨"*", 0, true, false, false, false⟩ : EmbedConfig).hasOnToolCall = true ∧
      20000 + 30000 ≤ (50000 : Nat)) ∧
    countInvoked "r1" (runEmbed ⟨"*", 0, true, false, false, false⟩ initEState
      [EmbedEvent.recv ⟨"*", 0, EventData.toolCall "r1" "add_slide" J.null⟩ 0,
       EmbedEvent.recv ⟨"*", 0, EventData.toolCall "r1" "add_slide" J.null⟩ 10,
       EmbedEvent.settle "r1" (Except.ok J.null) 20000,
       EmbedEvent.recv ⟨"*", 0, EventData.toolCall "r1" "add_slide" J.null⟩ 50000]
      ).invoked = 2 :=
  ⟨⟨rfl, by decide⟩,
    (dedup_window_amended ⟨"*", 0, true, false, false, false⟩ rfl
      "r1" "add_slide" "add_slide" "add_slide" J.null J.null J.null
      (Except.ok J.null) 0 10 20000 50000 (by decide)).2.2.2⟩
